import Mathlib

/-!
Verification of the quiz component in
`src/components/practices/funny_practices/Quiz.jsx`.

JavaScript runtime values occurring in question payloads are modelled by
`JPrim` (primitives) and `JVal` (a primitive or an array of primitives);
this covers every value shape the component's control flow inspects.

The comparator `() => Math.random() - 0.5` passed to `Array.prototype.sort`
is modelled by a boolean oracle `o : Nat → Bool` giving the sign of the
k-th comparator call.  ECMAScript leaves the resulting order
implementation-defined for an inconsistent comparator but guarantees the
result is a permutation of the input; the sort itself is modelled by an
oracle-driven merge sort, and the permutation property is proved below for
every oracle, i.e. for every behaviour of the random comparator.
-/

/-- A JavaScript primitive value, as far as this component can observe it. -/
inductive JPrim where
  | str (s : String)
  | num (n : Int)
  | boolv (b : Bool)
  | nullv
  | undef
deriving DecidableEq

/-- A JavaScript value: a primitive or an array of primitives. -/
inductive JVal where
  | prim (p : JPrim)
  | arr (l : List JPrim)
deriving DecidableEq

/-- JavaScript truthiness of a primitive (`""`, `0`, `false`, `null`,
`undefined` are falsy). -/
def jsTruthyPrim : JPrim → Bool
  | .str s => s != ""
  | .num n => n != 0
  | .boolv b => b
  | .nullv => false
  | .undef => false

/-- JavaScript truthiness of a value (arrays are always truthy). -/
def jsTruthy : JVal → Bool
  | .prim p => jsTruthyPrim p
  | .arr _ => true

/-- Truthiness of a nullable primitive (`null` modelled as `none`). -/
def jsTruthyOpt : Option JPrim → Bool
  | none => false
  | some p => jsTruthyPrim p

/-- Truthiness of a nullable string (`null` modelled as `none`). -/
def jsTruthyOptStr : Option String → Bool
  | none => false
  | some s => s != ""

/-- `typeof v === "string"`. -/
def jsTypeofString : JVal → Bool
  | .prim (.str _) => true
  | _ => false

/-- `Array.isArray(v)`. -/
def jsIsArray : JVal → Bool
  | .arr _ => true
  | _ => false

/-- The element list of an array value (empty for non-arrays). -/
def arrElems : JVal → List JPrim
  | .arr l => l
  | _ => []

/-- The underlying string of a string value (`""` for non-strings). -/
def strOf : JVal → String
  | .prim (.str s) => s
  | _ => ""

/-- JavaScript `a || b`. -/
def jsOr (a b : JVal) : JVal :=
  if jsTruthy a then a else b

/-- Merge step of the oracle-driven sort: the k-th comparator call returns
a negative number iff `o k`.  Fuel-indexed so the definition is structural
and kernel-reducible; the fuel-exhausted branch returns the concatenation,
so the permutation property holds for every fuel. -/
def omerge {α : Type} : Nat → (Nat → Bool) → List α → List α → Nat → List α × Nat
  | 0, _, xs, ys, k => (xs ++ ys, k)
  | fuel + 1, o, xs, ys, k =>
    match xs, ys with
    | [], ys => (ys, k)
    | xs, [] => (xs, k)
    | x :: xs, y :: ys =>
      if o k then
        let r := omerge fuel o xs (y :: ys) (k + 1)
        (x :: r.1, r.2)
      else
        let r := omerge fuel o (x :: xs) ys (k + 1)
        (y :: r.1, r.2)

/-- Fuel-indexed oracle-driven merge sort, threading the comparator-call
counter `k` through recursive calls. -/
def osortFuel {α : Type} : Nat → (Nat → Bool) → List α → Nat → List α × Nat
  | 0, _, l, k => (l, k)
  | fuel + 1, o, l, k =>
    match l with
    | [] => ([], k)
    | [a] => ([a], k)
    | l =>
      let n := l.length / 2
      let r1 := osortFuel fuel o (l.take n) k
      let r2 := osortFuel fuel o (l.drop n) r1.2
      omerge (r1.1.length + r2.1.length) o r1.1 r2.1 r2.2

/-- `array.sort(() => Math.random() - 0.5)` under comparator oracle `o`,
starting at comparator-call counter `k`: returns the permuted array and the
updated counter. -/
def osort {α : Type} (o : Nat → Bool) (l : List α) (k : Nat) : List α × Nat :=
  osortFuel l.length o l k

/-! ## Data model of the question payload (Quiz.jsx lines 27-55) -/

/-- The `content` object of a raw question record; each field is an
arbitrary JavaScript value (absent fields are `.prim .undef`). -/
structure RawContent where
  question : JVal
  correctAnswer : JVal
  wrongAnswers : JVal
  explanation : JVal
deriving DecidableEq

/-- The empty object `{}` used as fallback in `q.content || {}`: every
field access yields `undefined`. -/
def emptyContent : RawContent :=
  { question := .prim .undef, correctAnswer := .prim .undef,
    wrongAnswers := .prim .undef, explanation := .prim .undef }

/-- A raw record of `response.data`; `content : Option RawContent` is
`none` when `q.content` is absent or falsy (then `q.content || {}` yields
the empty object). -/
structure RawRecord where
  mongoId : JVal
  id : JVal
  content : Option RawContent
deriving DecidableEq

/-- `q.content || {}` (Quiz.jsx line 36). -/
def contentOf (q : RawRecord) : RawContent :=
  q.content.getD emptyContent

/-- The malformedness test of Quiz.jsx lines 37-42:
`typeof content.question !== "string" || typeof content.correctAnswer !==
"string" || !Array.isArray(content.wrongAnswers) ||
content.wrongAnswers.length < 1`.  Note the elements of `wrongAnswers` are
not themselves checked to be strings. -/
def isMalformed (q : RawRecord) : Bool :=
  let content := contentOf q
  !jsTypeofString content.question || !jsTypeofString content.correctAnswer ||
  !jsIsArray content.wrongAnswers || decide ((arrElems content.wrongAnswers).length < 1)

/-- A record the loader keeps: the negation of `isMalformed`. -/
def isValidRaw (q : RawRecord) : Bool :=
  !(isMalformed q)

/-- A normalized question (Quiz.jsx lines 46-53). -/
structure Question where
  id : JVal
  question : String
  options : List JPrim
  answer : String
  explanation : JVal
  feedback : JVal
deriving DecidableEq

/-- Placeholder used to totalize `questions[currentQuestion]`; every
handler invocation in the component happens from a render in which
`currentQuestion` is in bounds, so this default is never read on the
states the theorems below quantify over. -/
def defaultQuestion : Question :=
  { id := .prim .undef, question := "", options := [], answer := "",
    explanation := .prim .undef, feedback := .prim .undef }

/-- The element list of `content.wrongAnswers`. -/
def rawWrongs (q : RawRecord) : List JPrim :=
  arrElems (contentOf q).wrongAnswers

/-- The string value of `content.correctAnswer`. -/
def rawCorrect (q : RawRecord) : String :=
  strOf (contentOf q).correctAnswer

/-- The body of the `map` in Quiz.jsx lines 34-54: `none` models the
`return null` for a malformed record (consuming no comparator calls),
otherwise the normalized question whose `options` are
`[...content.wrongAnswers, content.correctAnswer].sort(() => Math.random() - 0.5)`. -/
def formatQuestion (o : Nat → Bool) (k : Nat) (q : RawRecord) : Option Question × Nat :=
  if isMalformed q then
    (none, k)
  else
    let sorted := osort o (rawWrongs q ++ [JPrim.str (rawCorrect q)]) k
    (some { id := jsOr q.mongoId q.id,
            question := strOf (contentOf q).question,
            options := sorted.1,
            answer := rawCorrect q,
            explanation := jsOr (contentOf q).explanation (.prim (.str "")),
            feedback := jsOr (contentOf q).explanation (.prim (.str "")) },
     sorted.2)

/-- `response.data.map(...).filter(Boolean)` (Quiz.jsx lines 33-55),
threading the comparator-call counter through the batch; a question object
is always truthy, so `filter(Boolean)` removes exactly the `null`s. -/
def formatBatch (o : Nat → Bool) (k : Nat) : List RawRecord → List Question × Nat
  | [] => ([], k)
  | q :: rest =>
    let fq := formatQuestion o k q
    let fr := formatBatch o fq.2 rest
    match fq.1 with
    | none => fr
    | some qq => (qq :: fr.1, fr.2)

/-- The loader's output sequence for a data batch: the formatted valid
questions, shuffled by `[...formattedQuestions].sort(() => Math.random() - 0.5)`
(Quiz.jsx line 62). -/
def loadQuestions (o : Nat → Bool) (k : Nat) (data : List RawRecord) : List Question × Nat :=
  let fb := formatBatch o k data
  osort o fb.1 fb.2

/-- Outcome of `questionsApi.getAllQuestions`: the promise rejects with an
error whose `message` is `msg`, or resolves; a resolved value is `none`
when `response` is null/undefined or has no `data` array, otherwise the
record list. -/
inductive FetchOutcome where
  | reject (msg : String)
  | respond (data : Option (List RawRecord))

/-- The `try`-block body of `fetchQuestions` (Quiz.jsx lines 27-62): each
JavaScript `throw` is an `Except.error` carrying the error message. -/
def fetchBody (o : Nat → Bool) (k : Nat) (out : FetchOutcome) : Except String (List Question) :=
  match out with
  | .reject msg => .error msg
  | .respond none => .error "Failed to fetch questions"
  | .respond (some data) =>
    let formattedQuestions := formatBatch o k data
    if formattedQuestions.1.length = 0 then
      .error "No valid questions available for this level."
    else
      .ok (osort o formattedQuestions.1 formattedQuestions.2).1

/-- `err.message || "Failed to load questions. Please try again."`
(Quiz.jsx line 70). -/
def errMessage (m : String) : String :=
  if m = "" then "Failed to load questions. Please try again." else m

/-! ## Component state (Quiz.jsx lines 8-15) -/

/-- The `useState` fields of the component. -/
structure QuizState where
  selectedLevel : Option String
  questions : List Question
  currentQuestion : Nat
  selectedAnswer : Option JPrim
  score : Nat
  showResults : Bool
  loading : Bool
  error : Option String
deriving DecidableEq

/-- The initial state (all `useState` initializers). -/
def initialState : QuizState :=
  { selectedLevel := none, questions := [], currentQuestion := 0,
    selectedAnswer := none, score := 0, showResults := false,
    loading := false, error := none }

/-- `fetchQuestions` (Quiz.jsx lines 23-75) as a state transformer: the
`try` body either throws (caught: only `error` is set, and `finally`
clears `loading`) or succeeds (the session fields are reset and the fresh
shuffled questions installed).  The transient `setLoading(true)` /
`setError(null)` at the top are unobservable at rest states. -/
def fetchQuestions (o : Nat → Bool) (k : Nat) (out : FetchOutcome) (s : QuizState) : QuizState :=
  match fetchBody o k out with
  | .error m =>
    { s with error := some (errMessage m), loading := false }
  | .ok qs =>
    { s with questions := qs, currentQuestion := 0, selectedAnswer := none,
             score := 0, showResults := false, error := none, loading := false }

/-- `handleAnswer` (Quiz.jsx lines 81-88).  The guard is JavaScript
truthiness of `selectedAnswer`; the comparison is
`option === questions[currentQuestion].answer`, where `answer` is always a
string for loader-produced questions. -/
def handleAnswer (opt : JPrim) (s : QuizState) : QuizState :=
  if !jsTruthyOpt s.selectedAnswer then
    if opt = JPrim.str (s.questions.getD s.currentQuestion defaultQuestion).answer then
      { s with selectedAnswer := some opt, score := s.score + 1 }
    else
      { s with selectedAnswer := some opt }
  else s

/-- `handleNext` (Quiz.jsx lines 90-97); the comparison
`currentQuestion < questions.length - 1` is JavaScript number arithmetic,
so it is taken over `Int`. -/
def handleNext (s : QuizState) : QuizState :=
  if (s.currentQuestion : Int) < (s.questions.length : Int) - 1 then
    { s with currentQuestion := s.currentQuestion + 1, selectedAnswer := none }
  else
    { s with showResults := true }

/-! ## Render states and user actions (Quiz.jsx lines 103-224) -/

/-- Which of the component's mutually exclusive renders is shown, in the
order the early returns occur in Quiz.jsx lines 103-145:
level selector, loading spinner, error box, empty-question box, results
view, or the question view. -/
inductive View where
  | levelSelect
  | loadingView
  | errorView
  | noQuestionsView
  | resultsView
  | questionView
deriving DecidableEq

/-- The render decision chain of Quiz.jsx: `!selectedLevel`, `loading`,
`error`, `questions.length === 0`, then `showResults` inside the main
render. -/
def renderView (s : QuizState) : View :=
  if !jsTruthyOptStr s.selectedLevel then .levelSelect
  else if s.loading then .loadingView
  else if s.error.isSome then .errorView
  else if s.questions.length = 0 then .noQuestionsView
  else if s.showResults then .resultsView
  else .questionView

/-- `Math.round(x)` for a finite number `x`: ECMAScript specifies the
integral Number closest to `x`, ties toward +∞, i.e. the exact
mathematical `⌊x + 1/2⌋` applied to the (dyadic-rational) value of the
double `x`.  Used below to state what the exact-rational rounding of the
percentage would be; the component itself computes in doubles, modelled by
`jsPercentDisplay`. -/
def jsRound (x : ℚ) : ℤ :=
  Int.floor (x + 1 / 2)

/-- Bit length of a natural number (`0` for `0`), fuel-indexed so it is
structural and kernel-reducible; `n` itself is always ample fuel. -/
def bitLenFuel : ℕ → ℕ → ℕ
  | 0, _ => 0
  | fuel + 1, n => if n = 0 then 0 else bitLenFuel fuel (n / 2) + 1

/-- Bit length: `bitLen n = ⌊log₂ n⌋ + 1` for `n > 0`. -/
def bitLen (n : ℕ) : ℕ :=
  bitLenFuel n n

/-- Round the ratio `a / b` (with `b > 0`) to the nearest integer, ties to
even — the IEEE-754 round-to-nearest-even rule at integer granularity. -/
def rneDiv (a b : ℕ) : ℕ :=
  let q := a / b
  let r := a % b
  if 2 * r < b then q
  else if b < 2 * r then q + 1
  else if q % 2 = 0 then q else q + 1

/-- `⌊a · 2^s / b⌋` for an integer (possibly negative) shift `s`. -/
def natShiftDiv (a b : ℕ) (s : ℤ) : ℕ :=
  if 0 ≤ s then a * 2 ^ s.toNat / b else a / (b * 2 ^ (-s).toNat)

/-- `a · 2^s / b` rounded to the nearest integer, ties to even. -/
def rneShiftDiv (a b : ℕ) (s : ℤ) : ℕ :=
  if 0 ≤ s then rneDiv (a * 2 ^ s.toNat) b else rneDiv a (b * 2 ^ (-s).toNat)

/-- The IEEE-754 binary64 value nearest to `a / b`, returned as a dyadic
pair `(m, f)` with value `m / 2^f`: the significand is normalized to
`[2^52, 2^53)` (so `m / 2^f` carries exactly 53 significant bits) and the
quotient is rounded to nearest, ties to even — the correctly rounded
division IEEE-754 prescribes and JavaScript performs on the exactly
representable integer operands this component divides.  Normal range only
(ample here); `(0, 0)` for a zero numerator or denominator. -/
def quotientDouble (a b : ℕ) : ℕ × ℤ :=
  if a = 0 ∨ b = 0 then (0, 0)
  else
    let s : ℤ := 52 + (bitLen b : ℤ) - (bitLen a : ℤ)
    let p := natShiftDiv a b s
    let t : ℤ := if p < 2 ^ 52 then s + 1 else if 2 ^ 53 ≤ p then s - 1 else s
    (rneShiftDiv a b t, t)

/-- `Math.round((score / len) * 100)` (Quiz.jsx line 148) evaluated the
way JavaScript evaluates it, in IEEE-754 binary64: the division
`score / len` is correctly rounded (`quotientDouble`), the product of that
double with the exact constant `100` is correctly rounded to 53
significant bits (ties to even), and `Math.round` takes `⌊x + 1/2⌋` of
the resulting dyadic value.  `score` and `len` are small integers, hence
exact doubles.  A zero `len` gives `NaN` in JavaScript and is unreachable
in the results view; it is mapped to `0` here. -/
def jsPercentDisplay (score len : ℕ) : ℕ :=
  if score = 0 ∨ len = 0 then 0
  else
    let d1 := quotientDouble score len
    let prod := d1.1 * 100
    let k := bitLen prod - 53
    let m2 := rneDiv prod (2 ^ k)
    let j : ℤ := d1.2 - (k : ℤ)
    if 0 ≤ j then (2 * m2 + 2 ^ j.toNat) / 2 ^ (j.toNat + 1)
    else m2 * 2 ^ (-j).toNat

/-- The percentage displayed in the results view. -/
def displayedPercentage (s : QuizState) : ℤ :=
  (jsPercentDisplay s.score s.questions.length : ℤ)

/-- A user-level event on the rendered component.  Actions that start a
fetch carry the comparator oracle, its starting counter, and the network
outcome of the request they trigger. -/
inductive UserAction where
  | selectLevel (lvl : String) (o : Nat → Bool) (k : Nat) (out : FetchOutcome)
  | clickOption (i : Nat)
  | clickNext
  | clickRestart (o : Nat → Bool) (k : Nat) (out : FetchOutcome)
  | clickTryAgain (o : Nat → Bool) (k : Nat) (out : FetchOutcome)
  | clickChangeLevel

/-- One event-loop step: a click only has an effect when its button is
rendered and enabled.  `selectLevel` models `handleLevelSelect` plus the
`useEffect` (which fetches only when the new level is truthy); option
buttons carry `disabled={!!selectedAnswer}` and the next button
`disabled={!selectedAnswer}` (Quiz.jsx lines 196 and 217); restart,
try-again and change-level buttons exist only in their respective views. -/
def step (a : UserAction) (s : QuizState) : QuizState :=
  match a with
  | .selectLevel lvl o k out =>
    if renderView s = .levelSelect then
      let s1 := { s with selectedLevel := some lvl }
      if jsTruthyOptStr s1.selectedLevel then fetchQuestions o k out s1 else s1
    else s
  | .clickOption i =>
    if renderView s = .questionView ∧ jsTruthyOpt s.selectedAnswer = false ∧
       i < (s.questions.getD s.currentQuestion defaultQuestion).options.length then
      handleAnswer ((s.questions.getD s.currentQuestion defaultQuestion).options.getD i .undef) s
    else s
  | .clickNext =>
    if renderView s = .questionView ∧ jsTruthyOpt s.selectedAnswer = true then
      handleNext s
    else s
  | .clickRestart o k out =>
    if renderView s = .resultsView then fetchQuestions o k out s else s
  | .clickTryAgain o k out =>
    if renderView s = .errorView then fetchQuestions o k out s else s
  | .clickChangeLevel =>
    if renderView s = .errorView ∨ renderView s = .noQuestionsView ∨
       renderView s = .resultsView then
      { s with selectedLevel := none }
    else s

/-- States reachable from the initial component state by user events. -/
inductive Reach : QuizState → Prop
  | init : Reach initialState
  | next (a : UserAction) {s : QuizState} : Reach s → Reach (step a s)

/-- Modelled from the spec: the abstract states of the quiz runner state
machine of spec section 4.2 (the transient `Loading` state is never a rest
state: every fetch settles within its event, with `loading` cleared by the
`finally` block, and `Ready` coincides with `Answering`). -/
inductive SpecState where
  | awaitingLevel
  | errorSt
  | answering
  | revealed
  | finished
deriving DecidableEq

/-- Modelled from the spec: the abstraction map from concrete component
state to the runner state of spec section 4.2. -/
def absState (s : QuizState) : SpecState :=
  if !jsTruthyOptStr s.selectedLevel then .awaitingLevel
  else if s.error.isSome then .errorSt
  else if s.showResults then .finished
  else if jsTruthyOpt s.selectedAnswer then .revealed
  else .answering

/-- Modelled from the spec: the transitions listed in spec section 4.2 —
level choice from `AwaitingLevel`; retry and level change from `Error`;
answer selection from `Answering`; advance from `Revealed`; restart and
level change from `Finished`. -/
def allowedAction : SpecState → UserAction → Bool
  | .awaitingLevel, .selectLevel _ _ _ _ => true
  | .errorSt, .clickTryAgain _ _ _ => true
  | .errorSt, .clickChangeLevel => true
  | .answering, .clickOption _ => true
  | .revealed, .clickNext => true
  | .finished, .clickRestart _ _ _ => true
  | .finished, .clickChangeLevel => true
  | _, _ => false

/-! ## Concrete sample inputs -/

/-- A comparator oracle under which every comparison returns a negative
number. -/
def oracleTrue : Nat → Bool := fun _ => true

/-- A concrete well-formed record. -/
def sampleGoodRecord : RawRecord :=
  { mongoId := .prim (.str "id1"), id := .prim .undef,
    content := some { question := .prim (.str "2+2?"),
                      correctAnswer := .prim (.str "4"),
                      wrongAnswers := .arr [.str "3"],
                      explanation := .prim (.str "arithmetic") } }

/-- The question the loader produces from `sampleGoodRecord` under
`oracleTrue`. -/
def sampleGoodQuestion : Question :=
  { id := .prim (.str "id1"), question := "2+2?",
    options := [.str "3", .str "4"], answer := "4",
    explanation := .prim (.str "arithmetic"), feedback := .prim (.str "arithmetic") }

/-- A record whose `wrongAnswers` is a non-empty array containing a
non-string element. -/
def sampleNonStringWrong : RawRecord :=
  { mongoId := .prim .undef, id := .prim (.str "id2"),
    content := some { question := .prim (.str "q"),
                      correctAnswer := .prim (.str "c"),
                      wrongAnswers := .arr [.num 7],
                      explanation := .prim .undef } }

/-- A record with no usable content at all. -/
def sampleBadRecord : RawRecord :=
  { mongoId := .prim .undef, id := .prim .undef, content := none }

/-- A valid record whose correct answer is the empty string. -/
def sampleEmptyAnswer : RawRecord :=
  { mongoId := .prim .undef, id := .prim .undef,
    content := some { question := .prim (.str "q"),
                      correctAnswer := .prim (.str ""),
                      wrongAnswers := .arr [.str "w"],
                      explanation := .prim .undef } }

/-- A valid record one of whose wrong answers is the falsy number 0. -/
def sampleFalsyWrong : RawRecord :=
  { mongoId := .prim .undef, id := .prim .undef,
    content := some { question := .prim (.str "q"),
                      correctAnswer := .prim (.str "c"),
                      wrongAnswers := .arr [.num 0],
                      explanation := .prim .undef } }

/-- A state in which a level has been chosen. -/
def sampleLevelState : QuizState :=
  { initialState with selectedLevel := some "A1" }

/-- A mid-quiz state: one question loaded, nothing answered yet. -/
def sampleSessionState : QuizState :=
  { selectedLevel := some "A1", questions := [sampleGoodQuestion], currentQuestion := 0,
    selectedAnswer := none, score := 0, showResults := false, loading := false, error := none }

/-- The same session after the correct option was selected. -/
def sampleRevealedState : QuizState :=
  { sampleSessionState with selectedAnswer := some (.str "4"), score := 1 }

/-- The same session after advancing past the last question. -/
def sampleFinishedState : QuizState :=
  { sampleSessionState with selectedAnswer := some (.str "4"), score := 1, showResults := true }

/-- A session on the last of 40 questions with 23 correct answers. -/
def fortyQuestionState : QuizState :=
  { selectedLevel := some "A1", questions := List.replicate 40 sampleGoodQuestion,
    currentQuestion := 39, selectedAnswer := some (.str "4"), score := 23,
    showResults := false, loading := false, error := none }

/-- The component state after choosing level "A1" when the fetch resolves
with the single record `sampleFalsyWrong` (options come out as
`[0, "c"]` under `oracleTrue`). -/
def falsySessionState : QuizState :=
  step (.selectLevel "A1" oracleTrue 0 (.respond (some [sampleFalsyWrong]))) initialState

/-- That session after the falsy option `0` has been clicked. -/
def falsySelectedState : QuizState :=
  step (.clickOption 0) falsySessionState

/-- A freshly loaded session whose only question has the empty string as
its correct answer. -/
def emptyAnswerSession : QuizState :=
  fetchQuestions oracleTrue 0 (.respond (some [sampleEmptyAnswer])) sampleLevelState

/-- That session after the empty-string option was clicked twice in a row. -/
def emptyAnswerClickedTwice : QuizState :=
  handleAnswer (.str "") (handleAnswer (.str "") emptyAnswerSession)

/-- States reachable from state `s0` by the raw answer and advance
handlers alone. -/
inductive HReach (s0 : QuizState) : QuizState → Prop
  | refl : HReach s0 s0
  | answer (opt : JPrim) {s : QuizState} : HReach s0 s → HReach s0 (handleAnswer opt s)
  | advance {s : QuizState} : HReach s0 s → HReach s0 (handleNext s)

/-! ## Sort lemmas -/

theorem omerge_perm {α : Type} (fuel : Nat) (o : Nat → Bool) :
    ∀ (xs ys : List α) (k : Nat), ((omerge fuel o xs ys k).1).Perm (xs ++ ys) := by
  induction fuel with
  | zero => intro xs ys k; simp [omerge]
  | succ fuel ih =>
    intro xs ys k
    match xs, ys with
    | [], ys => simp [omerge]
    | x :: xs, [] => simp [omerge]
    | x :: xs, y :: ys =>
      simp only [omerge]
      by_cases h : o k
      · simpa [h] using List.Perm.cons x (ih xs (y :: ys) (k + 1))
      · simp only [h, if_false]
        exact (List.Perm.cons y (ih (x :: xs) ys (k + 1))).trans List.perm_middle.symm

theorem osortFuel_perm {α : Type} (fuel : Nat) (o : Nat → Bool) :
    ∀ (l : List α) (k : Nat), ((osortFuel fuel o l k).1).Perm l := by
  induction fuel with
  | zero => intro l k; simp [osortFuel]
  | succ fuel ih =>
    intro l k
    match l with
    | [] => simp [osortFuel]
    | [a] => simp [osortFuel]
    | a :: b :: t =>
      simp only [osortFuel]
      refine (omerge_perm _ o _ _ _).trans ?_
      refine ((ih _ _).append (ih _ _)).trans ?_
      rw [List.take_append_drop]

/-- For every behaviour of the random comparator, the sorted array is a
permutation of its input. -/
theorem osort_perm {α : Type} (o : Nat → Bool) (l : List α) (k : Nat) :
    ((osort o l k).1).Perm l :=
  osortFuel_perm l.length o l k

theorem osort_length {α : Type} (o : Nat → Bool) (l : List α) (k : Nat) :
    ((osort o l k).1).length = l.length :=
  (osort_perm o l k).length_eq

/-! ## Loader lemmas -/

theorem formatQuestion_malformed {q : RawRecord} (o : Nat → Bool) (k : Nat)
    (h : isMalformed q = true) : formatQuestion o k q = (none, k) := by
  simp [formatQuestion, h]

theorem formatQuestion_valid {q : RawRecord} (o : Nat → Bool) (k : Nat)
    (h : isMalformed q = false) :
    formatQuestion o k q =
      (some { id := jsOr q.mongoId q.id,
              question := strOf (contentOf q).question,
              options := (osort o (rawWrongs q ++ [JPrim.str (rawCorrect q)]) k).1,
              answer := rawCorrect q,
              explanation := jsOr (contentOf q).explanation (.prim (.str "")),
              feedback := jsOr (contentOf q).explanation (.prim (.str "")) },
       (osort o (rawWrongs q ++ [JPrim.str (rawCorrect q)]) k).2) := by
  simp [formatQuestion, h]

theorem formatBatch_length (o : Nat → Bool) :
    ∀ (batch : List RawRecord) (k : Nat),
      ((formatBatch o k batch).1).length = batch.countP (fun r => isValidRaw r) := by
  intro batch
  induction batch with
  | nil => intro k; simp [formatBatch]
  | cons q rest ih =>
    intro k
    by_cases h : isMalformed q
    · simp [formatBatch, formatQuestion_malformed o k h, List.countP_cons, isValidRaw, h, ih]
    · simp [formatBatch, formatQuestion_valid o k (by simpa using h),
            List.countP_cons, isValidRaw, h, ih]

theorem formatBatch_filter (o : Nat → Bool) :
    ∀ (batch : List RawRecord) (k : Nat),
      formatBatch o k batch = formatBatch o k (batch.filter (fun r => isValidRaw r)) := by
  intro batch
  induction batch with
  | nil => intro k; rfl
  | cons q rest ih =>
    intro k
    by_cases h : isMalformed q
    · simp [formatBatch, formatQuestion_malformed o k h, List.filter_cons, isValidRaw, h, ih]
    · simp only [formatBatch, List.filter_cons]
      have hv : isValidRaw q = true := by simp [isValidRaw, h]
      simp only [hv, if_true, formatBatch]
      rw [← ih]

theorem formatBatch_mem (o : Nat → Bool) :
    ∀ (batch : List RawRecord) (k : Nat) (q : Question),
      q ∈ (formatBatch o k batch).1 →
      ∃ r ∈ batch, isValidRaw r = true ∧
        q.answer = rawCorrect r ∧
        (q.options).Perm (rawWrongs r ++ [JPrim.str (rawCorrect r)]) := by
  intro batch
  induction batch with
  | nil => intro k q h; simp [formatBatch] at h
  | cons r rest ih =>
    intro k q hq
    by_cases h : isMalformed r
    · rw [show formatBatch o k (r :: rest) = formatBatch o k rest by
        simp [formatBatch, formatQuestion_malformed o k h]] at hq
      obtain ⟨r', hr', hprop⟩ := ih k q hq
      exact ⟨r', List.mem_cons_of_mem _ hr', hprop⟩
    · simp only [formatBatch, formatQuestion_valid o k (by simpa using h)] at hq
      rcases List.mem_cons.mp hq with hq | hq
      · refine ⟨r, List.mem_cons_self r rest, by simp [isValidRaw, h], ?_, ?_⟩
        · rw [hq]
        · rw [hq]
          exact osort_perm o _ k
      · obtain ⟨r', hr', hprop⟩ := ih _ q hq
        exact ⟨r', List.mem_cons_of_mem _ hr', hprop⟩

theorem loadQuestions_length (o : Nat → Bool) (k : Nat) (data : List RawRecord) :
    ((loadQuestions o k data).1).length = data.countP (fun r => isValidRaw r) := by
  unfold loadQuestions
  rw [osort_length, formatBatch_length]

theorem loadQuestions_perm_formatBatch (o : Nat → Bool) (k : Nat) (data : List RawRecord) :
    ((loadQuestions o k data).1).Perm ((formatBatch o k data).1) :=
  osort_perm o _ _

theorem fetchBody_ok_ne_nil {o : Nat → Bool} {k : Nat} {out : FetchOutcome}
    {qs : List Question} (h : fetchBody o k out = .ok qs) : qs ≠ [] := by
  match out with
  | .reject msg => simp [fetchBody] at h
  | .respond none => simp [fetchBody] at h
  | .respond (some data) =>
    simp only [fetchBody] at h
    by_cases hz : ((formatBatch o k data).1).length = 0
    · simp [hz] at h
    · simp only [hz, if_false] at h
      have h2 : (osort o ((formatBatch o k data).1) ((formatBatch o k data).2)).1 = qs := by
        injection h
      intro hnil
      apply hz
      have hlen := osort_length o ((formatBatch o k data).1) ((formatBatch o k data).2)
      rw [h2, hnil] at hlen
      simpa using hlen.symm

theorem fetchQuestions_error_none_ne_nil (o : Nat → Bool) (k : Nat)
    (out : FetchOutcome) (s : QuizState)
    (h : (fetchQuestions o k out s).error = none) :
    (fetchQuestions o k out s).questions ≠ [] := by
  unfold fetchQuestions at h ⊢
  cases hb : fetchBody o k out with
  | error m => rw [hb] at h; simp at h
  | ok qs => simpa using fetchBody_ok_ne_nil hb

/-! ## Claim C1 -/

/-- C1 counterexample: a record whose `wrongAnswers` is a non-empty array
containing the non-string element `7` is not a non-empty sequence of
strings, yet it is not excluded — the loader emits a question for it,
whose options even contain the non-string element. -/
theorem c1_counterexample :
    ((loadQuestions oracleTrue 0 [sampleNonStringWrong]).1).length = 1 ∧
    ∀ q ∈ (loadQuestions oracleTrue 0 [sampleNonStringWrong]).1,
      JPrim.num 7 ∈ q.options := by
  decide

/-- C1 (amended): every record whose `question` or `correctAnswer` is not
a string, or whose `wrongAnswers` is not a non-empty array — element types
are not checked — is excluded from the loader's resulting question
sequence, and the loader never throws to its caller: every run settles in
a rest state with `loading` cleared. -/
theorem c1_loader_skips_invalid (o : Nat → Bool) (k : Nat) (batch : List RawRecord)
    (out : FetchOutcome) (s : QuizState) :
    loadQuestions o k batch = loadQuestions o k (batch.filter (fun r => isValidRaw r)) ∧
    (fetchQuestions o k out s).loading = false := by
  constructor
  · unfold loadQuestions
    rw [← formatBatch_filter]
  · unfold fetchQuestions
    cases fetchBody o k out <;> rfl

/-! ## Claim C3 -/

/-- C3: when the fetched batch contains no valid record, the loader throws
the `No valid questions available for this level.` error (the spec's
`NoQuestionsAvailable`), and the runner lands in the error render state
with that user-facing message set instead of entering the quiz. -/
theorem c3_no_valid_questions (o : Nat → Bool) (k : Nat) (batch : List RawRecord)
    (s : QuizState) (hz : batch.countP (fun r => isValidRaw r) = 0)
    (hl : jsTruthyOptStr s.selectedLevel = true) :
    fetchBody o k (.respond (some batch)) =
      .error "No valid questions available for this level." ∧
    (fetchQuestions o k (.respond (some batch)) s).error =
      some "No valid questions available for this level." ∧
    renderView (fetchQuestions o k (.respond (some batch)) s) = .errorView := by
  have hb : fetchBody o k (.respond (some batch)) =
      .error "No valid questions available for this level." := by
    simp [fetchBody, formatBatch_length, hz]
  refine ⟨hb, ?_, ?_⟩
  · simp [fetchQuestions, hb, errMessage]
  · simp [fetchQuestions, hb, renderView, errMessage, hl]

/-- C3 witness: a concrete batch whose only record has no content. -/
theorem c3_witness :
    fetchBody oracleTrue 0 (.respond (some [sampleBadRecord])) =
      .error "No valid questions available for this level." ∧
    (fetchQuestions oracleTrue 0 (.respond (some [sampleBadRecord])) sampleLevelState).error =
      some "No valid questions available for this level." ∧
    renderView (fetchQuestions oracleTrue 0 (.respond (some [sampleBadRecord])) sampleLevelState) =
      .errorView :=
  c3_no_valid_questions oracleTrue 0 [sampleBadRecord] sampleLevelState (by decide) (by decide)

/-! ## Claim C4 -/

/-- C4: for every batch with at least one valid record, the loader output
sequence length equals the number of valid records, and every produced
question's `answer` is a member of its `options`. -/
theorem c4_loader_output (o : Nat → Bool) (k : Nat) (batch : List RawRecord)
    (h : 0 < batch.countP (fun r => isValidRaw r)) :
    ((loadQuestions o k batch).1).length = batch.countP (fun r => isValidRaw r) ∧
    ∀ q ∈ (loadQuestions o k batch).1, JPrim.str q.answer ∈ q.options := by
  refine ⟨loadQuestions_length o k batch, ?_⟩
  intro q hq
  have hq' : q ∈ (formatBatch o k batch).1 :=
    (loadQuestions_perm_formatBatch o k batch).mem_iff.mp hq
  obtain ⟨r, hr, hv, hans, hperm⟩ := formatBatch_mem o batch k q hq'
  have hmem : JPrim.str q.answer ∈ rawWrongs r ++ [JPrim.str (rawCorrect r)] := by
    rw [hans]; simp
  exact hperm.mem_iff.mpr hmem

/-- C4 witness at a concrete one-record batch. -/
theorem c4_witness :
    ((loadQuestions oracleTrue 0 [sampleGoodRecord]).1).length =
      List.countP (fun r => isValidRaw r) [sampleGoodRecord] ∧
    JPrim.str sampleGoodQuestion.answer ∈ sampleGoodQuestion.options :=
  ⟨(c4_loader_output oracleTrue 0 [sampleGoodRecord] (by decide)).1,
   (c4_loader_output oracleTrue 0 [sampleGoodRecord] (by decide)).2
     sampleGoodQuestion (by decide)⟩

/-! ## Claim C8 -/

/-- C8: for every behaviour of the random comparator, the shuffled
question sequence is a permutation of the valid-question sequence, and
every produced question's options are a permutation of the source
record's `wrongAnswers` followed by `correctAnswer` (hence of length
`wrongAnswers.length + 1`). -/
theorem c8_shuffle_permutations (o : Nat → Bool) (k : Nat) (batch : List RawRecord) :
    ((loadQuestions o k batch).1).Perm ((formatBatch o k batch).1) ∧
    ∀ q ∈ (loadQuestions o k batch).1,
      ∃ r ∈ batch, isValidRaw r = true ∧
        q.answer = rawCorrect r ∧
        (q.options).Perm (rawWrongs r ++ [JPrim.str (rawCorrect r)]) ∧
        q.options.length = (rawWrongs r).length + 1 := by
  refine ⟨loadQuestions_perm_formatBatch o k batch, ?_⟩
  intro q hq
  have hq' := (loadQuestions_perm_formatBatch o k batch).mem_iff.mp hq
  obtain ⟨r, hr, hv, hans, hperm⟩ := formatBatch_mem o batch k q hq'
  exact ⟨r, hr, hv, hans, hperm, by simpa using hperm.length_eq⟩

/-- C8 witness at a concrete one-record batch. -/
theorem c8_witness :
    ((loadQuestions oracleTrue 0 [sampleGoodRecord]).1).Perm
      ((formatBatch oracleTrue 0 [sampleGoodRecord]).1) ∧
    ∃ r ∈ [sampleGoodRecord], isValidRaw r = true ∧
      sampleGoodQuestion.answer = rawCorrect r ∧
      (sampleGoodQuestion.options).Perm (rawWrongs r ++ [JPrim.str (rawCorrect r)]) ∧
      sampleGoodQuestion.options.length = (rawWrongs r).length + 1 :=
  ⟨(c8_shuffle_permutations oracleTrue 0 [sampleGoodRecord]).1,
   (c8_shuffle_permutations oracleTrue 0 [sampleGoodRecord]).2
     sampleGoodQuestion (by decide)⟩

/-! ## Claim C9 -/

/-- C9: when the fetch fails (rejected request, missing payload, or zero
valid records — exactly the cases in which `fetchBody` throws), the loader
leaves the prior session untouched: the resulting state differs from the
old one only in `error` (set to the user-facing message) and `loading`
(cleared); questions, score, currentQuestion, selectedAnswer and
showResults keep their previous values. -/
theorem c9_error_atomicity (o : Nat → Bool) (k : Nat) (out : FetchOutcome)
    (s : QuizState) (m : String) (h : fetchBody o k out = .error m) :
    fetchQuestions o k out s =
      { s with error := some (errMessage m), loading := false } := by
  unfold fetchQuestions
  rw [h]

/-- C9 witness: a concrete rejected request against a mid-session state. -/
theorem c9_witness :
    fetchQuestions oracleTrue 0 (.reject "boom") sampleLevelState =
      { sampleLevelState with error := some (errMessage "boom"), loading := false } :=
  c9_error_atomicity oracleTrue 0 (.reject "boom") sampleLevelState "boom" (by rfl)

/-! ## Render-state characterizations -/

theorem renderView_eq_levelSelect {s : QuizState} :
    renderView s = .levelSelect ↔ jsTruthyOptStr s.selectedLevel = false := by
  unfold renderView
  split_ifs with h1 h2 h3 h4 h5 <;> simp_all

theorem renderView_eq_errorView {s : QuizState} :
    renderView s = .errorView ↔
      jsTruthyOptStr s.selectedLevel = true ∧ s.loading = false ∧ s.error.isSome = true := by
  unfold renderView
  split_ifs with h1 h2 h3 h4 h5 <;> simp_all

theorem renderView_eq_noQuestionsView {s : QuizState} :
    renderView s = .noQuestionsView ↔
      jsTruthyOptStr s.selectedLevel = true ∧ s.loading = false ∧ s.error = none ∧
      s.questions.length = 0 := by
  unfold renderView
  split_ifs with h1 h2 h3 h4 h5 <;> simp_all [Option.isSome_iff_ne_none]

theorem renderView_eq_resultsView {s : QuizState} :
    renderView s = .resultsView ↔
      jsTruthyOptStr s.selectedLevel = true ∧ s.loading = false ∧ s.error = none ∧
      s.questions.length ≠ 0 ∧ s.showResults = true := by
  unfold renderView
  split_ifs with h1 h2 h3 h4 h5 <;> simp_all [Option.isSome_iff_ne_none]

theorem renderView_eq_questionView {s : QuizState} :
    renderView s = .questionView ↔
      jsTruthyOptStr s.selectedLevel = true ∧ s.loading = false ∧ s.error = none ∧
      s.questions.length ≠ 0 ∧ s.showResults = false := by
  unfold renderView
  split_ifs with h1 h2 h3 h4 h5 <;> simp_all [Option.isSome_iff_ne_none]

/-! ## Claim C2 -/

/-- C2 counterexample: in a reachable session whose wrong answer is the
falsy value `0`, clicking `0` records it as the selected answer, yet a
further click is processed — the truthiness guard `!selectedAnswer` does
not lock the question — and it even increments the score. -/
theorem c2_counterexample :
    falsySelectedState.selectedAnswer = some (.num 0) ∧
    step (.clickOption 1) falsySelectedState ≠ falsySelectedState ∧
    (step (.clickOption 1) falsySelectedState).score = falsySelectedState.score + 1 := by
  decide

/-- C2 (amended): with no answer selected, choosing the option equal to
the current question's answer increments score by exactly 1 and choosing
any other option leaves score unchanged (either way the option is
recorded); once an answer has been selected, a further selection attempt
is a no-op provided the recorded option is truthy — the guard
`!selectedAnswer` tests JavaScript truthiness, so a falsy selected option
(such as `0` or `""`) leaves the question open to further selections. -/
theorem c2_answer_handling (s : QuizState) (opt : JPrim)
    (h : s.selectedAnswer = none) :
    ((opt = JPrim.str (s.questions.getD s.currentQuestion defaultQuestion).answer →
        (handleAnswer opt s).score = s.score + 1 ∧
        (handleAnswer opt s).selectedAnswer = some opt) ∧
     (opt ≠ JPrim.str (s.questions.getD s.currentQuestion defaultQuestion).answer →
        (handleAnswer opt s).score = s.score ∧
        (handleAnswer opt s).selectedAnswer = some opt)) ∧
    (∀ (t : QuizState) (opt' : JPrim), jsTruthyOpt t.selectedAnswer = true →
      handleAnswer opt' t = t) := by
  refine ⟨⟨?_, ?_⟩, ?_⟩
  · intro he; simp [handleAnswer, jsTruthyOpt, h, he]
  · intro he
    unfold handleAnswer
    rw [h]
    simp only [jsTruthyOpt, Bool.not_false, if_true]
    rw [if_neg he]
    exact ⟨rfl, rfl⟩
  · intro t opt' ht; simp [handleAnswer, ht]

/-- C2 witness: concrete selections against a one-question session. -/
theorem c2_witness :
    (handleAnswer (.str "4") sampleSessionState).score = sampleSessionState.score + 1 ∧
    (handleAnswer (.str "3") sampleSessionState).score = sampleSessionState.score ∧
    handleAnswer (.str "3") (handleAnswer (.str "4") sampleSessionState) =
      handleAnswer (.str "4") sampleSessionState :=
  ⟨((c2_answer_handling sampleSessionState (.str "4") rfl).1.1 (by decide)).1,
   ((c2_answer_handling sampleSessionState (.str "3") rfl).1.2 (by decide)).1,
   (c2_answer_handling sampleSessionState (.str "4") rfl).2
     (handleAnswer (.str "4") sampleSessionState) (.str "3") (by decide)⟩

/-! ## Claim C5 -/

/-- Validation of the binary64 emulation: the double nearest `23 / 40` is
`5179139571476070 × 2⁻⁵³ = 0.574999999999999955…` (the IEEE-754 value a
JavaScript engine stores for `23/40`). -/
theorem quotientDouble_23_40 : quotientDouble 23 40 = (5179139571476070, 53) := by
  decide

/-- Validation of the binary64 emulation: the double nearest `3 / 5` is
`5404319552844595 × 2⁻⁵³ = 0.599999999999999977…`. -/
theorem quotientDouble_3_5 : quotientDouble 3 5 = (5404319552844595, 53) := by
  decide

/-- C5 counterexample: advancing on the last question of a 23-of-40
session sets the completed flag, but the component displays 57: in
doubles `(23/40)*100 = 57.49999999999999…`, strictly below the tie, so
`Math.round` gives 57, while the claimed `round(score/total*100)` is
`round(57.5) = 58`. -/
theorem c5_counterexample :
    (step .clickNext fortyQuestionState).showResults = true ∧
    displayedPercentage (step .clickNext fortyQuestionState) = 57 ∧
    jsRound (((fortyQuestionState.score : ℚ) /
      (fortyQuestionState.questions.length : ℚ)) * 100) = 58 ∧
    displayedPercentage (step .clickNext fortyQuestionState) ≠
      jsRound (((fortyQuestionState.score : ℚ) /
        (fortyQuestionState.questions.length : ℚ)) * 100) := by
  have h57 : displayedPercentage (step .clickNext fortyQuestionState) = 57 := by decide
  have h58 : jsRound (((fortyQuestionState.score : ℚ) /
      (fortyQuestionState.questions.length : ℚ)) * 100) = 58 := by
    have hsc : fortyQuestionState.score = 23 := rfl
    have hln : fortyQuestionState.questions.length = 40 := by decide
    unfold jsRound
    rw [hsc, hln, Int.floor_eq_iff]
    push_cast
    norm_num
  exact ⟨by decide, h57, h58, by rw [h57, h58]; decide⟩

/-- C5 (amended): clicking advance on the last question sets the
completed flag (`showResults`), and the results view then displays
`Math.round((score / total) * 100)` evaluated in IEEE-754 double
precision, where `total` is the session's question count.  This agrees
with the exact `round(score / total * 100)` at the spec's examples — a
3-of-4 session renders 75 and a 3-of-5 session renders 60 — but not at
every input (see the 23-of-40 counterexample, where the double value
falls just below the rounding tie). -/
theorem c5_completion_percentage (s : QuizState)
    (hv : renderView s = .questionView)
    (ha : jsTruthyOpt s.selectedAnswer = true)
    (hl : s.currentQuestion = s.questions.length - 1) :
    (step .clickNext s).showResults = true ∧
    displayedPercentage (step .clickNext s) =
      (jsPercentDisplay s.score s.questions.length : ℤ) ∧
    (∀ t : QuizState, t.score = 3 → t.questions.length = 4 →
      displayedPercentage t = 75 ∧ jsRound ((3 : ℚ) / 4 * 100) = 75) ∧
    (∀ t : QuizState, t.score = 3 → t.questions.length = 5 →
      displayedPercentage t = 60 ∧ jsRound ((3 : ℚ) / 5 * 100) = 60) := by
  obtain ⟨-, -, -, hlen, -⟩ := renderView_eq_questionView.mp hv
  have hstep : step .clickNext s = handleNext s := by
    simp [step, hv, ha]
  have hnext : handleNext s = { s with showResults := true } := by
    unfold handleNext
    rw [if_neg]
    rw [hl]
    have : 1 ≤ s.questions.length := Nat.one_le_iff_ne_zero.mpr hlen
    push_cast [Nat.cast_sub this]
    omega
  refine ⟨?_, ?_, ?_, ?_⟩
  · rw [hstep, hnext]
  · rw [hstep, hnext]
    unfold displayedPercentage
    rfl
  · intro t hs hq
    constructor
    · unfold displayedPercentage
      rw [hs, hq]
      decide
    · unfold jsRound
      rw [Int.floor_eq_iff]
      norm_num
  · intro t hs hq
    constructor
    · unfold displayedPercentage
      rw [hs, hq]
      decide
    · unfold jsRound
      rw [Int.floor_eq_iff]
      norm_num

/-- C5 witness: a one-question session with the answer selected. -/
theorem c5_witness :
    (step .clickNext sampleRevealedState).showResults = true ∧
    displayedPercentage (step .clickNext sampleRevealedState) =
      (jsPercentDisplay sampleRevealedState.score
        sampleRevealedState.questions.length : ℤ) :=
  ⟨(c5_completion_percentage sampleRevealedState (by decide) (by decide) (by decide)).1,
   (c5_completion_percentage sampleRevealedState (by decide) (by decide) (by decide)).2.1⟩

/-! ## Claim C6 -/

/-- C6 counterexample: on a finished session with score 1, a restart whose
fetch fails leaves the score at 1 instead of resetting it, and the
change-level action leaves the session's questions and score in place
instead of discarding them. -/
theorem c6_counterexample :
    sampleFinishedState.score = 1 ∧
    (step (.clickRestart oracleTrue 0 (.reject "network down")) sampleFinishedState).score = 1 ∧
    (step .clickChangeLevel sampleFinishedState).questions ≠ [] ∧
    (step .clickChangeLevel sampleFinishedState).score = 1 := by
  decide

/-- C6 (amended): a restart whose fetch succeeds with at least one valid
record resets score to 0 and currentIndex to 0, clears the selected answer
and completed flag, and installs the freshly fetched reshuffled sequence;
a restart whose fetch fails keeps every session field and only sets the
error message. The change-level action returns the runner to the
AwaitingLevel render; session fields are not cleared immediately but are
reset by the next successful load. -/
theorem c6_restart_change_level (s : QuizState) (o : Nat → Bool) (k : Nat)
    (batch : List RawRecord) (hr : renderView s = .resultsView)
    (hb : 0 < batch.countP (fun r => isValidRaw r)) :
    ((step (.clickRestart o k (.respond (some batch))) s).score = 0 ∧
     (step (.clickRestart o k (.respond (some batch))) s).currentQuestion = 0 ∧
     (step (.clickRestart o k (.respond (some batch))) s).selectedAnswer = none ∧
     (step (.clickRestart o k (.respond (some batch))) s).showResults = false ∧
     (step (.clickRestart o k (.respond (some batch))) s).error = none ∧
     (step (.clickRestart o k (.respond (some batch))) s).questions =
       (loadQuestions o k batch).1) ∧
    (∀ (out : FetchOutcome) (m : String), fetchBody o k out = .error m →
      step (.clickRestart o k out) s =
        { s with error := some (errMessage m), loading := false }) ∧
    ((step .clickChangeLevel s).selectedLevel = none ∧
     renderView (step .clickChangeLevel s) = .levelSelect) := by
  have hz : ((formatBatch o k batch).1).length ≠ 0 := by
    rw [formatBatch_length]
    omega
  have hok : fetchBody o k (.respond (some batch)) = .ok (loadQuestions o k batch).1 := by
    simp [fetchBody, hz, loadQuestions]
  refine ⟨?_, ?_, ?_⟩
  · rw [show step (.clickRestart o k (.respond (some batch))) s =
        fetchQuestions o k (.respond (some batch)) s by simp [step, hr]]
    unfold fetchQuestions
    rw [hok]
    exact ⟨rfl, rfl, rfl, rfl, rfl, rfl⟩
  · intro out m hm
    rw [show step (.clickRestart o k out) s = fetchQuestions o k out s by simp [step, hr]]
    unfold fetchQuestions
    rw [hm]
  · have hcl : step .clickChangeLevel s = { s with selectedLevel := none } := by
      simp [step, hr]
    rw [hcl]
    exact ⟨rfl, renderView_eq_levelSelect.mpr rfl⟩

/-- C6 witness: a concrete finished session, a successful restart batch
and a failing restart. -/
theorem c6_witness :
    ((step (.clickRestart oracleTrue 0 (.respond (some [sampleGoodRecord]))) sampleFinishedState).score = 0 ∧
     (step (.clickRestart oracleTrue 0 (.respond (some [sampleGoodRecord]))) sampleFinishedState).currentQuestion = 0 ∧
     (step (.clickRestart oracleTrue 0 (.respond (some [sampleGoodRecord]))) sampleFinishedState).selectedAnswer = none ∧
     (step (.clickRestart oracleTrue 0 (.respond (some [sampleGoodRecord]))) sampleFinishedState).showResults = false ∧
     (step (.clickRestart oracleTrue 0 (.respond (some [sampleGoodRecord]))) sampleFinishedState).error = none ∧
     (step (.clickRestart oracleTrue 0 (.respond (some [sampleGoodRecord]))) sampleFinishedState).questions =
       (loadQuestions oracleTrue 0 [sampleGoodRecord]).1) ∧
    ((step .clickChangeLevel sampleFinishedState).selectedLevel = none ∧
     renderView (step .clickChangeLevel sampleFinishedState) = .levelSelect) :=
  ⟨(c6_restart_change_level sampleFinishedState oracleTrue 0 [sampleGoodRecord]
      (by decide) (by decide)).1,
   (c6_restart_change_level sampleFinishedState oracleTrue 0 [sampleGoodRecord]
      (by decide) (by decide)).2.2⟩

/-! ## Claim C10 -/

theorem hreach_invariant (s0 : QuizState)
    (hq0 : s0.questions ≠ []) (hidx : s0.currentQuestion = 0)
    (hsc : s0.score = 0) (hsel : s0.selectedAnswer = none)
    (hans : ∀ q ∈ s0.questions, q.answer ≠ "") :
    ∀ s, HReach s0 s →
      s.questions = s0.questions ∧
      s.currentQuestion < s0.questions.length ∧
      s.score ≤ s.currentQuestion + (if jsTruthyOpt s.selectedAnswer = true then 1 else 0) := by
  intro s h
  induction h with
  | refl =>
    refine ⟨rfl, ?_, ?_⟩
    · rw [hidx]
      exact List.length_pos.mpr hq0
    · simp [hsc, hsel, jsTruthyOpt]
  | @answer opt s h ih =>
    obtain ⟨hqs, hlt, hscore⟩ := ih
    by_cases hg : jsTruthyOpt s.selectedAnswer = true
    · have hh : handleAnswer opt s = s := by
        unfold handleAnswer
        rw [hg]
        rfl
      rw [hh]
      exact ⟨hqs, hlt, hscore⟩
    · have hg' : jsTruthyOpt s.selectedAnswer = false := by
        simpa using hg
      have hlen : s.currentQuestion < s.questions.length := by
        rw [hqs]; exact hlt
      have hs0 : s.score ≤ s.currentQuestion := by
        simpa [hg'] using hscore
      by_cases he : opt = JPrim.str (s.questions.getD s.currentQuestion defaultQuestion).answer
      · have hmem : s.questions.getD s.currentQuestion defaultQuestion ∈ s.questions := by
          rw [List.getD_eq_getElem s.questions defaultQuestion hlen]
          exact List.getElem_mem hlen
        have hqa : (s.questions.getD s.currentQuestion defaultQuestion).answer ≠ "" := by
          apply hans
          rw [← hqs]
          exact hmem
        have hh : handleAnswer opt s =
            { s with selectedAnswer := some opt, score := s.score + 1 } := by
          unfold handleAnswer
          rw [hg', if_pos he]
          rfl
        rw [hh]
        refine ⟨hqs, hlt, ?_⟩
        have htr : jsTruthyOpt (some opt) = true := by
          rw [he]
          simp only [jsTruthyOpt, jsTruthyPrim, bne_iff_ne, ne_eq, decide_eq_true_eq]
          exact hqa
        simpa [htr] using Nat.add_le_add_right hs0 1
      · have hh : handleAnswer opt s = { s with selectedAnswer := some opt } := by
          unfold handleAnswer
          rw [hg', if_neg he]
          rfl
        rw [hh]
        refine ⟨hqs, hlt, ?_⟩
        have : s.score ≤ s.currentQuestion + (if jsTruthyOpt (some opt) = true then 1 else 0) := by
          split_ifs <;> omega
        simpa using this
  | @advance s h ih =>
    obtain ⟨hqs, hlt, hscore⟩ := ih
    by_cases hc : (s.currentQuestion : Int) < (s.questions.length : Int) - 1
    · have hh : handleNext s =
          { s with currentQuestion := s.currentQuestion + 1, selectedAnswer := none } := by
        unfold handleNext
        rw [if_pos hc]
      rw [hh]
      have h2 : s.currentQuestion + 1 < s.questions.length := by omega
      refine ⟨hqs, ?_, ?_⟩
      · rw [← hqs]; exact h2
      · have hsc2 : s.score ≤ s.currentQuestion + 1 := by
          split_ifs at hscore <;> omega
        simpa [jsTruthyOpt] using hsc2
    · have hh : handleNext s = { s with showResults := true } := by
        unfold handleNext
        rw [if_neg hc]
      rw [hh]
      exact ⟨hqs, hlt, hscore⟩

/-- C10 counterexample: a session freshly loaded from a valid batch whose
correct answer is the empty string; clicking that falsy option twice — a
sequence of answer-handler invocations — drives the score to 2 on the
first question, violating score ≤ currentIndex + 1. -/
theorem c10_counterexample :
    emptyAnswerSession.score = 0 ∧ emptyAnswerSession.currentQuestion = 0 ∧
    emptyAnswerSession.selectedAnswer = none ∧ emptyAnswerSession.error = none ∧
    emptyAnswerSession.questions.length = 1 ∧
    emptyAnswerClickedTwice.score = 2 ∧ emptyAnswerClickedTwice.currentQuestion = 0 ∧
    ¬(emptyAnswerClickedTwice.score ≤ emptyAnswerClickedTwice.currentQuestion + 1) := by
  decide

/-- C10 (amended): from a freshly loaded session all of whose questions
have non-empty (truthy) answers, every state reachable by the answer and
advance handlers satisfies 0 ≤ score ≤ currentIndex + 1 ≤ number of
questions.  The loader itself accepts an empty-string `correctAnswer`, and
on such a question repeated selection pushes the score past this bound. -/
theorem c10_score_invariant (o : Nat → Bool) (k : Nat) (out : FetchOutcome)
    (sprev s : QuizState)
    (herr : (fetchQuestions o k out sprev).error = none)
    (hans : ∀ q ∈ (fetchQuestions o k out sprev).questions, q.answer ≠ "")
    (hr : HReach (fetchQuestions o k out sprev) s) :
    s.score ≤ s.currentQuestion + 1 ∧ s.currentQuestion + 1 ≤ s.questions.length := by
  have hshape : (fetchQuestions o k out sprev).questions ≠ [] ∧
      (fetchQuestions o k out sprev).currentQuestion = 0 ∧
      (fetchQuestions o k out sprev).score = 0 ∧
      (fetchQuestions o k out sprev).selectedAnswer = none := by
    unfold fetchQuestions at herr ⊢
    cases hb : fetchBody o k out with
    | error m => rw [hb] at herr; simp at herr
    | ok qs => exact ⟨by simpa using fetchBody_ok_ne_nil hb, rfl, rfl, rfl⟩
  obtain ⟨h1, h2, h3, h4⟩ := hshape
  obtain ⟨hqs, hlt, hscore⟩ :=
    hreach_invariant (fetchQuestions o k out sprev) h1 h2 h3 h4 hans s hr
  constructor
  · split_ifs at hscore <;> omega
  · rw [hqs]
    omega

/-- C10 witness: the freshly loaded session itself, reached by zero
handler invocations. -/
theorem c10_witness :
    (fetchQuestions oracleTrue 0 (.respond (some [sampleGoodRecord])) sampleLevelState).score ≤
      (fetchQuestions oracleTrue 0 (.respond (some [sampleGoodRecord])) sampleLevelState).currentQuestion + 1 ∧
    (fetchQuestions oracleTrue 0 (.respond (some [sampleGoodRecord])) sampleLevelState).currentQuestion + 1 ≤
      (fetchQuestions oracleTrue 0 (.respond (some [sampleGoodRecord])) sampleLevelState).questions.length :=
  c10_score_invariant oracleTrue 0 (.respond (some [sampleGoodRecord])) sampleLevelState
    (fetchQuestions oracleTrue 0 (.respond (some [sampleGoodRecord])) sampleLevelState)
    (by decide) (by decide) HReach.refl

/-! ## Claim C7 -/

theorem handleAnswer_fields (opt : JPrim) (s : QuizState) :
    (handleAnswer opt s).questions = s.questions ∧
    (handleAnswer opt s).error = s.error ∧
    (handleAnswer opt s).selectedLevel = s.selectedLevel := by
  unfold handleAnswer
  split_ifs <;> exact ⟨rfl, rfl, rfl⟩

theorem handleNext_fields (s : QuizState) :
    (handleNext s).questions = s.questions ∧
    (handleNext s).error = s.error ∧
    (handleNext s).selectedLevel = s.selectedLevel := by
  unfold handleNext
  split_ifs <;> exact ⟨rfl, rfl, rfl⟩

theorem reach_questions_ne_nil :
    ∀ {s : QuizState}, Reach s →
      jsTruthyOptStr s.selectedLevel = true → s.error = none → s.questions ≠ [] := by
  intro s h
  induction h with
  | init =>
    intro h1 _
    simp [initialState, jsTruthyOptStr] at h1
  | @next a t h ih =>
    intro hl he
    cases a with
    | selectLevel lvl o k out =>
      by_cases hg : renderView t = View.levelSelect
      · simp only [step, hg, if_true] at hl he ⊢
        by_cases ht : jsTruthyOptStr (some lvl) = true
        · simp only [ht, if_true] at hl he ⊢
          exact fetchQuestions_error_none_ne_nil o k out _ he
        · simp only [eq_false_of_ne_true ht, if_false] at hl
          exact absurd hl (by simp_all)
      · simp only [step] at hl he ⊢
        rw [if_neg hg] at hl he ⊢
        exact ih hl he
    | clickOption i =>
      by_cases hg : renderView t = View.questionView ∧ jsTruthyOpt t.selectedAnswer = false ∧
          i < (t.questions.getD t.currentQuestion defaultQuestion).options.length
      · simp only [step] at hl he ⊢
        rw [if_pos hg] at hl he ⊢
        obtain ⟨f1, f2, f3⟩ := handleAnswer_fields
          ((t.questions.getD t.currentQuestion defaultQuestion).options.getD i .undef) t
        rw [f1]
        rw [f2] at he
        rw [f3] at hl
        exact ih hl he
      · simp only [step] at hl he ⊢
        rw [if_neg hg] at hl he ⊢
        exact ih hl he
    | clickNext =>
      by_cases hg : renderView t = View.questionView ∧ jsTruthyOpt t.selectedAnswer = true
      · simp only [step] at hl he ⊢
        rw [if_pos hg] at hl he ⊢
        obtain ⟨f1, f2, f3⟩ := handleNext_fields t
        rw [f1]
        rw [f2] at he
        rw [f3] at hl
        exact ih hl he
      · simp only [step] at hl he ⊢
        rw [if_neg hg] at hl he ⊢
        exact ih hl he
    | clickRestart o k out =>
      by_cases hg : renderView t = View.resultsView
      · simp only [step] at hl he ⊢
        rw [if_pos hg] at hl he ⊢
        exact fetchQuestions_error_none_ne_nil o k out _ he
      · simp only [step] at hl he ⊢
        rw [if_neg hg] at hl he ⊢
        exact ih hl he
    | clickTryAgain o k out =>
      by_cases hg : renderView t = View.errorView
      · simp only [step] at hl he ⊢
        rw [if_pos hg] at hl he ⊢
        exact fetchQuestions_error_none_ne_nil o k out _ he
      · simp only [step] at hl he ⊢
        rw [if_neg hg] at hl he ⊢
        exact ih hl he
    | clickChangeLevel =>
      by_cases hg : renderView t = View.errorView ∨ renderView t = View.noQuestionsView ∨
          renderView t = View.resultsView
      · simp only [step] at hl ⊢
        rw [if_pos hg] at hl ⊢
        simp [jsTruthyOptStr] at hl
      · simp only [step] at hl he ⊢
        rw [if_neg hg] at hl he ⊢
        exact ih hl he

/-- C7: on every reachable component state, a user action invoked outside
the spec state in which it is listed leaves the state unchanged — only the
transitions listed in the spec state machine are possible. -/
theorem c7_only_listed_transitions (s : QuizState) (a : UserAction)
    (hs : Reach s) (hna : allowedAction (absState s) a = false) :
    step a s = s := by
  cases a with
  | selectLevel lvl o k out =>
    by_cases hv : renderView s = .levelSelect
    · exfalso
      have hl := renderView_eq_levelSelect.mp hv
      have habs : absState s = .awaitingLevel := by
        simp [absState, hl]
      rw [habs] at hna
      simp [allowedAction] at hna
    · simp only [step, hv, if_false]
  | clickOption i =>
    by_cases hv : renderView s = .questionView ∧ jsTruthyOpt s.selectedAnswer = false ∧
        i < (s.questions.getD s.currentQuestion defaultQuestion).options.length
    · exfalso
      obtain ⟨hv1, hv2, -⟩ := hv
      obtain ⟨ha1, -, ha3, -, ha5⟩ := renderView_eq_questionView.mp hv1
      have habs : absState s = .answering := by
        simp [absState, ha1, ha3, ha5, hv2]
      rw [habs] at hna
      simp [allowedAction] at hna
    · simp only [step, hv, if_false]
  | clickNext =>
    by_cases hv : renderView s = .questionView ∧ jsTruthyOpt s.selectedAnswer = true
    · exfalso
      obtain ⟨hv1, hv2⟩ := hv
      obtain ⟨ha1, -, ha3, -, ha5⟩ := renderView_eq_questionView.mp hv1
      have habs : absState s = .revealed := by
        simp [absState, ha1, ha3, ha5, hv2]
      rw [habs] at hna
      simp [allowedAction] at hna
    · simp only [step, hv, if_false]
  | clickRestart o k out =>
    by_cases hv : renderView s = .resultsView
    · exfalso
      obtain ⟨ha1, -, ha3, -, ha5⟩ := renderView_eq_resultsView.mp hv
      have habs : absState s = .finished := by
        simp [absState, ha1, ha3, ha5]
      rw [habs] at hna
      simp [allowedAction] at hna
    · simp only [step, hv, if_false]
  | clickTryAgain o k out =>
    by_cases hv : renderView s = .errorView
    · exfalso
      obtain ⟨ha1, -, ha3⟩ := renderView_eq_errorView.mp hv
      have habs : absState s = .errorSt := by
        simp [absState, ha1, ha3]
      rw [habs] at hna
      simp [allowedAction] at hna
    · simp only [step, hv, if_false]
  | clickChangeLevel =>
    by_cases hv : renderView s = .errorView ∨ renderView s = .noQuestionsView ∨
        renderView s = .resultsView
    · exfalso
      rcases hv with hv | hv | hv
      · obtain ⟨ha1, -, ha3⟩ := renderView_eq_errorView.mp hv
        have habs : absState s = .errorSt := by
          simp [absState, ha1, ha3]
        rw [habs] at hna
        simp [allowedAction] at hna
      · obtain ⟨ha1, -, ha3, ha4⟩ := renderView_eq_noQuestionsView.mp hv
        exact absurd (List.length_eq_zero.mp ha4) (reach_questions_ne_nil hs ha1 ha3)
      · obtain ⟨ha1, -, ha3, -, ha5⟩ := renderView_eq_resultsView.mp hv
        have habs : absState s = .finished := by
          simp [absState, ha1, ha3, ha5]
        rw [habs] at hna
        simp [allowedAction] at hna
    · simp only [step, hv, if_false]

/-- C7 witness: the advance action in the initial AwaitingLevel state is
not listed there and indeed changes nothing. -/
theorem c7_witness : step .clickNext initialState = initialState :=
  c7_only_listed_transitions initialState .clickNext Reach.init (by decide)
